import Mathlib

/-!
Shallow embedding of `src/backend/app/store.py` (`class SessionStore`).

The Python object state is modelled by `Store`:
* `SessionStore.__init__` (store.py lines 17-24) assigns `use_sqlite`,
  `db_path`, `user_app_sessions` and `lock`, but never assigns
  `self.sessions`; an attribute that was never assigned is modelled as
  `sessions : Option …` being `none`, and any Python access to the missing
  attribute is an `AttributeError`.
* Python `dict`s (insertion ordered, unique keys) are association lists;
  `dictInsert` replaces in place, `dictErase` drops the key.
* The SQLite table is the list `db` of `DbRow`s; `datetime.utcnow()` is an
  explicit `now : Nat` parameter; ISO timestamp strings are `Timestamp`
  (`valid t` is a parseable non-empty string denoting time `t`,
  `malformed` is a non-empty string `datetime.fromisoformat` rejects).
* A durable write that raises (disk failure) is the explicit `dbFail` flag.
* A method that can let a Python exception escape returns `PyResult`;
  `raised` carries no payload but the paired `Store` keeps every mutation
  the method performed before raising (Python does not roll back).
* `threading.RLock` only serializes calls; the model is the sequential
  semantics of each method body.
-/

/-- Result of running a Python method body: either a returned value or an
exception escaping the body (Python keeps all mutations made before the
raise, so the mutated state is carried alongside separately). -/
inductive PyResult (α : Type) where
  | ok (a : α)
  | raised
deriving DecidableEq, Repr

/-- An ISO-format timestamp string as stored in a session dict: `valid t`
is a non-empty string that `datetime.fromisoformat` parses to time `t`;
`malformed` is a non-empty string it rejects (`ValueError`). -/
inductive Timestamp where
  | valid (t : Nat)
  | malformed
deriving DecidableEq, Repr

/-- An in-memory session dict (`session_info` / `session_data` in
store.py): the keys the code reads, `none` meaning the key is absent. -/
structure SessionRecord where
  session_id : Option String := none
  user_id : Option String := none
  app_slug : Option String := none
  status : Option String := none
  metadata : Option String := none
  created_at : Option Timestamp := none
  last_accessed : Option Timestamp := none
  expires_at : Option Timestamp := none
deriving DecidableEq, Repr

/-- One row of the SQLite `sessions` table (store.py lines 30-41).
`expires_at` is written by this code only as an ISO string for a concrete
time, so it is modelled as `Option Nat`. -/
structure DbRow where
  session_id : String
  user_id : String
  app_slug : String
  status : String
  metadata : Option String
  created_at : Timestamp
  last_accessed : Timestamp
  expires_at : Option Nat
deriving DecidableEq, Repr

/-- The state of a `SessionStore` object together with its SQLite file.
`sessions = none` models the `self.sessions` attribute never having been
assigned (as after `__init__`, store.py lines 17-24). -/
structure Store where
  use_sqlite : Bool
  sessions : Option (List (String × SessionRecord))
  user_app_sessions : List (String × List (String × String))
  db : List DbRow
deriving DecidableEq, Repr

/-- Python `d.get(k)` on an insertion-ordered dict. -/
def dictGet {α : Type} (k : String) : List (String × α) → Option α
  | [] => none
  | (k', v) :: t => if k' = k then some v else dictGet k t

/-- Python `d[k] = v`: replace in place when the key is present, append
otherwise. -/
def dictInsert {α : Type} (k : String) (v : α) : List (String × α) → List (String × α)
  | [] => [(k, v)]
  | (k', v') :: t => if k' = k then (k, v) :: t else (k', v') :: dictInsert k v t

/-- Python `del d[k]` (on dicts, where keys are unique). -/
def dictErase {α : Type} (k : String) : List (String × α) → List (String × α)
  | [] => []
  | (k', v') :: t => if k' = k then dictErase k t else (k', v') :: dictErase k t

/-- Lookup `user_app_sessions.get(u, {}).get(a)`. -/
def uasLookup (uas : List (String × List (String × String))) (u a : String) : Option String :=
  match dictGet u uas with
  | none => none
  | some apps => dictGet a apps

/-- The session dict currently held in memory for `sid`, if the
`sessions` attribute exists and has the key. -/
def memSession (s : Store) (sid : String) : Option SessionRecord :=
  match s.sessions with
  | none => none
  | some m => dictGet sid m

/-- SQL `INSERT OR REPLACE` keyed on the `session_id` primary key. -/
def dbUpsert (row : DbRow) (db : List DbRow) : List DbRow :=
  if db.any (fun r => r.session_id = row.session_id) then
    db.map (fun r => if r.session_id = row.session_id then row else r)
  else db ++ [row]

/-- The `WHERE status = 'active' AND (expires_at IS NULL OR expires_at >
datetime('now'))` filter of `_load_sessions_from_db` (store.py 61-65). -/
def loadFilter (row : DbRow) (now : Nat) : Bool :=
  row.status == "active" &&
    (match row.expires_at with
     | none => true
     | some t => now < t)

/-- `SessionStore(use_sqlite, db_path)` over a database already containing
`db` at time `now`.  `_init_database` creates the table, then
`_load_sessions_from_db` selects the active unexpired rows; the first
`self.sessions[row["session_id"]] = session_data` (store.py line 86) hits
the never-assigned attribute, the `AttributeError` is logged and re-raised
(lines 90-92) and propagates out of the constructor, so construction
succeeds only when no row passes the filter. -/
def mkSessionStore (use_sqlite : Bool) (db : List DbRow) (now : Nat) : Except Unit Store :=
  let s : Store :=
    { use_sqlite := use_sqlite, sessions := none, user_app_sessions := [], db := db }
  if use_sqlite then
    if (db.filter (fun row => loadFilter row now)).isEmpty then .ok s
    else .error ()
  else .ok s

/-- `has_session` (store.py 106-109): `app_slug in
self.user_app_sessions.get(user_id, {})`. -/
def has_session (s : Store) (user_id app_slug : String) : Bool :=
  match dictGet user_id s.user_app_sessions with
  | none => false
  | some apps => (dictGet app_slug apps).isSome

/-- `store_session` (store.py 111-141).  The whole body is inside
`try/except Exception: return False`, so it always returns a `Bool`.
Accessing the missing `sessions` attribute (line 115) or a missing
`"session_id"` key raises before any mutation, giving `(s, false)`.
Otherwise memory is mutated first; a failing durable write (`dbFail`)
raises inside the `with` block, is caught, and the memory mutation is
kept while `false` is returned.  The row written to SQLite carries
`status = "active"`, `last_accessed = now` and
`expires_at = now + 24*3600` (line 135), regardless of the record's own
`expires_at`. -/
def store_session (s : Store) (user_id app_slug : String) (session_info : SessionRecord)
    (now : Nat) (dbFail : Bool) : Store × Bool :=
  match s.sessions with
  | none => (s, false)
  | some m =>
    match session_info.session_id with
    | none => (s, false)
    | some sid =>
      let m' := dictInsert sid session_info m
      let apps := (dictGet user_id s.user_app_sessions).getD []
      let uas' := dictInsert user_id (dictInsert app_slug sid apps) s.user_app_sessions
      let s' := { s with sessions := some m', user_app_sessions := uas' }
      if s.use_sqlite then
        if dbFail then (s', false)
        else
          let row : DbRow :=
            { session_id := sid
              user_id := user_id
              app_slug := app_slug
              status := "active"
              metadata := session_info.metadata
              created_at := session_info.created_at.getD (.valid now)
              last_accessed := .valid now
              expires_at := some (now + 86400) }
          ({ s' with db := dbUpsert row s'.db }, true)
      else (s', true)

/-- `get_session` (store.py 143-149).  `if not session_id` is Python
truthiness, so an empty-string id is reported as not found; when an id is
found, `self.sessions.get(session_id)` raises `AttributeError` if the
attribute is missing. -/
def get_session (s : Store) (user_id app_slug : String) : PyResult (Option SessionRecord) :=
  match uasLookup s.user_app_sessions user_id app_slug with
  | none => .ok none
  | some sid =>
    if sid = "" then .ok none
    else
      match s.sessions with
      | none => .raised
      | some m => .ok (dictGet sid m)

/-- The index after `del self.user_app_sessions[user_id][app_slug]`
followed by `if not self.user_app_sessions[user_id]: del
self.user_app_sessions[user_id]` (store.py 169-172), where `apps` is the
user's inner dict. -/
def uasAfterRemove (uas : List (String × List (String × String))) (user_id app_slug : String)
    (apps : List (String × String)) : List (String × List (String × String)) :=
  if (dictErase app_slug apps).isEmpty then dictErase user_id uas
  else dictInsert user_id (dictErase app_slug apps) uas

/-- `remove_session` (store.py 161-182).  No `try/except`: after the
index entry is deleted, `session_id in self.sessions` raises
`AttributeError` when the attribute is missing, and a failing durable
`DELETE` raises out of the method; both leave the earlier in-memory
deletions in place. -/
def remove_session (s : Store) (user_id app_slug : String) (dbFail : Bool) :
    Store × PyResult Bool :=
  match dictGet user_id s.user_app_sessions with
  | none => (s, .ok false)
  | some apps =>
    match dictGet app_slug apps with
    | none => (s, .ok false)
    | some sid =>
      match s.sessions with
      | none =>
        ({ s with user_app_sessions := uasAfterRemove s.user_app_sessions user_id app_slug apps },
         .raised)
      | some m =>
        if s.use_sqlite then
          if dbFail then
            ({ s with
                user_app_sessions := uasAfterRemove s.user_app_sessions user_id app_slug apps,
                sessions := some (dictErase sid m) }, .raised)
          else
            ({ s with
                user_app_sessions := uasAfterRemove s.user_app_sessions user_id app_slug apps,
                sessions := some (dictErase sid m),
                db := s.db.filter (fun r => r.session_id ≠ sid) }, .ok true)
        else
          ({ s with
              user_app_sessions := uasAfterRemove s.user_app_sessions user_id app_slug apps,
              sessions := some (dictErase sid m) }, .ok true)

/-- The in-memory expiry test of the sweep (store.py 202-211): a missing
or falsy `expires_at` is skipped, an unparseable one counts as expired. -/
def sessionExpired (r : SessionRecord) (now : Nat) : Bool :=
  match r.expires_at with
  | none => false
  | some (.valid t) => t < now
  | some .malformed => true

/-- `expired_sessions` as collected by iterating `self.sessions.items()`
in insertion order (store.py 199-211). -/
def expiredList (m : List (String × SessionRecord)) (now : Nat) : List String :=
  (m.filter (fun p => sessionExpired p.2 now)).map (fun p => p.1)

/-- Row kept by the durable sweep `DELETE … WHERE expires_at IS NOT NULL
AND expires_at < datetime('now')` (store.py 191-195). -/
def dbKeep (row : DbRow) (now : Nat) : Bool :=
  match row.expires_at with
  | none => true
  | some t => !(t < now)

/-- The durable half of the sweep. -/
def dbSweep (db : List DbRow) (now : Nat) : List DbRow :=
  db.filter (fun row => dbKeep row now)

/-- The removal loop of `cleanup_expired_sessions` (store.py 214-220):
for each collected id, re-read the session dict, and when its
`user_id`/`app_slug` are present and truthy call `remove_session`; a raise
from `remove_session` aborts the loop (to be caught by the enclosing
`except`). -/
def sweepLoop (dbFail : Bool) : List String → Store → Store × PyResult Unit
  | [], st => (st, .ok ())
  | sid :: rest, st =>
    match st.sessions with
    | none => (st, .raised)
    | some m =>
      match dictGet sid m with
      | none => sweepLoop dbFail rest st
      | some r =>
        match r.user_id, r.app_slug with
        | some u, some a =>
          if u = "" ∨ a = "" then sweepLoop dbFail rest st
          else
            match remove_session st u a dbFail with
            | (st', .ok _) => sweepLoop dbFail rest st'
            | (st', .raised) => (st', .raised)
        | some _, none => sweepLoop dbFail rest st
        | none, _ => sweepLoop dbFail rest st

/-- The body of `cleanup_expired_sessions` (store.py 184-226) up to the
enclosing `except`: durable sweep first (a failing `DELETE` raises at
once), then `self.sessions.items()` (raising when the attribute is
missing), then the removal loop. -/
def cleanup_run (s : Store) (now : Nat) (dbFail : Bool) : Store × PyResult Unit :=
  if s.use_sqlite && dbFail then (s, .raised)
  else
    let s0 := if s.use_sqlite then { s with db := dbSweep s.db now } else s
    match s0.sessions with
    | none => (s0, .raised)
    | some m => sweepLoop dbFail (expiredList m now) s0

/-- `cleanup_expired_sessions`: the whole body is wrapped in
`try/except Exception: logger.error(...)`, so every exception is swallowed
and the mutations made before it are kept. -/
def cleanup_expired_sessions (s : Store) (now : Nat) (dbFail : Bool) : Store :=
  (cleanup_run s now dbFail).1

/-- `get_session_count` (store.py 228-235): `len(self.sessions)` is
evaluated first and raises `AttributeError` when the attribute is
missing. -/
def get_session_count (s : Store) : PyResult (Nat × Nat × Nat) :=
  match s.sessions with
  | none => .raised
  | some m =>
    .ok (m.length, s.user_app_sessions.length,
      (s.user_app_sessions.map (fun p => p.2.length)).foldl (· + ·) 0)

/-- Sequential execution of a batch of `store_session` calls (one
serialization order of concurrent callers, as forced by `self.lock`). -/
def runStores (s : Store) (reqs : List (String × String × SessionRecord))
    (now : Nat) (dbFail : Bool) : Store × List Bool :=
  match reqs with
  | [] => (s, [])
  | (u, a, r) :: rest =>
    let p := store_session s u a r now dbFail
    let q := runStores p.1 rest now dbFail
    (q.1, p.2 :: q.2)

/-- The store produced by a successful construction: `sessions` attribute
missing, empty index. -/
def emptyStore : Store :=
  { use_sqlite := true, sessions := none, user_app_sessions := [], db := [] }

/-! ### Association-list (Python dict) lemmas -/

theorem dictGet_insert_self {α : Type} (k : String) (v : α) (l : List (String × α)) :
    dictGet k (dictInsert k v l) = some v := by
  induction l with
  | nil => simp [dictInsert, dictGet]
  | cons p t ih =>
    obtain ⟨k', v'⟩ := p
    by_cases h : k' = k
    · simp [dictInsert, h, dictGet]
    · simp [dictInsert, h, dictGet, ih]

theorem dictGet_insert_ne {α : Type} (k0 k : String) (v : α) (l : List (String × α))
    (h : k0 ≠ k) : dictGet k0 (dictInsert k v l) = dictGet k0 l := by
  have h' : ¬ (k = k0) := fun hh => h hh.symm
  induction l with
  | nil => simp [dictInsert, dictGet, h']
  | cons p t ih =>
    obtain ⟨k', v'⟩ := p
    by_cases hk : k' = k
    · subst hk
      simp [dictInsert, dictGet, h']
    · by_cases hk0 : k' = k0
      · simp [dictInsert, hk, dictGet, hk0, h]
      · simp [dictInsert, hk, dictGet, hk0, ih]

theorem dictGet_erase {α : Type} (k0 k : String) (l : List (String × α)) :
    dictGet k0 (dictErase k l) = if k0 = k then none else dictGet k0 l := by
  induction l with
  | nil => simp [dictErase, dictGet]
  | cons p t ih =>
    obtain ⟨k', v'⟩ := p
    by_cases hk : k' = k
    · by_cases hk0 : k0 = k
      · simp [hk0] at ih
        simp [dictErase, dictGet, hk, hk0, ih]
      · have h2 : ¬ (k' = k0) := fun hh => hk0 (hh.symm.trans hk)
        have h3 : ¬ (k = k0) := fun hh => hk0 hh.symm
        simp [dictErase, dictGet, hk, hk0, h2, h3, ih]
    · by_cases hk0 : k' = k0
      · have h2 : ¬ (k0 = k) := fun hh => hk (hk0.trans hh)
        simp [dictErase, dictGet, hk, hk0, h2]
      · simp [dictErase, dictGet, hk, hk0, ih]

theorem mem_of_dictGet {α : Type} {k : String} {v : α} {l : List (String × α)}
    (h : dictGet k l = some v) : (k, v) ∈ l := by
  induction l with
  | nil => simp [dictGet] at h
  | cons p t ih =>
    obtain ⟨k', v'⟩ := p
    by_cases hk : k' = k
    · subst hk
      simp [dictGet] at h
      simp [h]
    · simp [dictGet, hk] at h
      exact List.mem_cons_of_mem _ (ih h)

theorem dictGet_isSome_of_mem {α : Type} {k : String} {v : α} {l : List (String × α)}
    (h : (k, v) ∈ l) : ∃ v', dictGet k l = some v' := by
  induction l with
  | nil => cases h
  | cons p t ih =>
    obtain ⟨k', v'⟩ := p
    by_cases hk : k' = k
    · exact ⟨v', by simp [dictGet, hk]⟩
    · rcases List.mem_cons.mp h with heq | hmem
      · cases heq; exact absurd rfl hk
      · simpa [dictGet, hk] using ih hmem

theorem mem_of_mem_dictErase {α : Type} {k : String} {x : String × α}
    {l : List (String × α)} (h : x ∈ dictErase k l) : x ∈ l := by
  induction l with
  | nil => simp [dictErase] at h
  | cons p t ih =>
    obtain ⟨k', v'⟩ := p
    by_cases hk : k' = k
    · simp [dictErase, hk] at h
      exact List.mem_cons_of_mem _ (ih h)
    · simp [dictErase, hk] at h
      rcases h with heq | hmem
      · simp [heq]
      · exact List.mem_cons_of_mem _ (ih hmem)

/-! ### Claim theorems: the uninitialized `sessions` attribute (C1) -/

/-- C1: `__init__` sets `user_app_sessions` and the lock but never the
`sessions` attribute, and nothing else creates it.  Over an empty
database, construction succeeds with the attribute missing and every
`store_session` call hits it first, returns `false` and leaves the whole
state (in particular `user_app_sessions`) unchanged; over a database
holding at least one active unexpired row, the constructor raises out of
`_load_sessions_from_db`. -/
theorem c1_sessions_attribute_never_initialized
    (now nowStore nowLoad : Nat) (u a : String) (r : SessionRecord) (f : Bool)
    (db : List DbRow) (row : DbRow)
    (hmem : row ∈ db) (hrow : loadFilter row nowLoad = true) :
    mkSessionStore true [] now = .ok emptyStore ∧
    store_session emptyStore u a r nowStore f = (emptyStore, false) ∧
    mkSessionStore true db nowLoad = .error () := by
  refine ⟨rfl, rfl, ?_⟩
  have hne : (db.filter (fun row => loadFilter row nowLoad)).isEmpty = false := by
    have hmem' : row ∈ db.filter (fun row => loadFilter row nowLoad) :=
      List.mem_filter.mpr ⟨hmem, hrow⟩
    cases hf : db.filter (fun row => loadFilter row nowLoad) with
    | nil => rw [hf] at hmem'; cases hmem'
    | cons x xs => simp
  simp [mkSessionStore, hne]

/-- A concrete active row without expiry, for the C1 witness. -/
def c1Row : DbRow :=
  { session_id := "sid-w", user_id := "u1", app_slug := "github", status := "active",
    metadata := none, created_at := .valid 0, last_accessed := .valid 0, expires_at := none }

/-- Witness for C1 at concrete inputs. -/
theorem c1_witness :
    mkSessionStore true [] 0 = .ok emptyStore ∧
    store_session emptyStore "u1" "github" { session_id := some "sid-1" } 0 false
      = (emptyStore, false) ∧
    mkSessionStore true [c1Row] 5 = .error () :=
  c1_sessions_attribute_never_initialized 0 0 5 "u1" "github"
    { session_id := some "sid-1" } false [c1Row] c1Row
    (List.mem_singleton.mpr rfl) (by decide)

/-! ### Concrete states and records used by individual claims -/

/-- A store whose `sessions` attribute exists and is empty: the state the
rest of the class assumes `__init__` would have produced. -/
def initSomeStore : Store :=
  { use_sqlite := true, sessions := some [], user_app_sessions := [], db := [] }

/-- Record used by the C2 failing input. -/
def c2rec : SessionRecord := { session_id := some "sid-1" }

/-- C2 (code bug): on a store whose `sessions` dict exists, a failing
durable write makes `store_session` return `false`, but the in-memory
mutation is kept, not rolled back: the new record sits in `sessions` and
the index entry in `user_app_sessions` while the durable store was never
updated, so the resulting state differs from the state before the call. -/
theorem c2_durable_failure_not_rolled_back :
    store_session initSomeStore "u1" "github" c2rec 0 true =
      ({ use_sqlite := true, sessions := some [("sid-1", c2rec)],
         user_app_sessions := [("u1", [("github", "sid-1")])], db := [] }, false) ∧
    ({ use_sqlite := true, sessions := some [("sid-1", c2rec)],
       user_app_sessions := [("u1", [("github", "sid-1")])], db := [] } : Store)
      ≠ initSomeStore :=
  ⟨rfl, by decide⟩

/-- Record and rows used by the C3 failing input. -/
def c3rec : SessionRecord :=
  { session_id := some "sid-1", user_id := some "u1", app_slug := some "github" }

/-- Durable row backing the C3 record. -/
def c3row : DbRow :=
  { session_id := "sid-1", user_id := "u1", app_slug := "github", status := "active",
    metadata := none, created_at := .valid 0, last_accessed := .valid 0,
    expires_at := some 86400 }

/-- Store holding exactly one session, for the C3 failing input. -/
def c3Store : Store :=
  { use_sqlite := true, sessions := some [("sid-1", c3rec)],
    user_app_sessions := [("u1", [("github", "sid-1")])], db := [c3row] }

/-- C3 (code bug): when a record exists and the durable `DELETE` fails,
`remove_session` raises (there is no `try/except` in the method) after
already deleting the record from both in-memory structures, leaving the
durable row behind: a half-removal plus an escaping exception instead of
a `false` return with unchanged state. -/
theorem c3_half_removal_and_raise :
    remove_session c3Store "u1" "github" true =
      ({ use_sqlite := true, sessions := some [], user_app_sessions := [],
         db := [c3row] }, .raised) :=
  rfl

/-- Record of the first store of the C4 scenario (`sid-1`, expires in
one hour). -/
def c4rec : SessionRecord :=
  { session_id := some "sid-1", expires_at := some (.valid 3600) }

/-- C4 (code bug): the supersede scenario never gets started, because on
a really constructed store (whose `sessions` attribute is missing) the
very first `store_session` returns `false` and stores nothing, so
`has_session(u1, github)` stays `false`, `get_session(u1, github)` is
absent, and `get_session_count` raises `AttributeError` instead of
returning counts. -/
theorem c4_supersede_scenario_never_starts :
    mkSessionStore true [] 0 = .ok emptyStore ∧
    store_session emptyStore "u1" "github" c4rec 0 false = (emptyStore, false) ∧
    has_session emptyStore "u1" "github" = false ∧
    get_session emptyStore "u1" "github" = .ok none ∧
    get_session_count emptyStore = .raised :=
  ⟨rfl, rfl, rfl, rfl, rfl⟩

/-- Active unexpired durable row for the C5 scenario. -/
def c5row1 : DbRow :=
  { session_id := "sid-1", user_id := "u1", app_slug := "github", status := "active",
    metadata := none, created_at := .valid 0, last_accessed := .valid 0,
    expires_at := some 7200 }

/-- Active but expired durable row for the C5 scenario. -/
def c5row2 : DbRow :=
  { session_id := "sid-2", user_id := "u1", app_slug := "slack", status := "active",
    metadata := none, created_at := .valid 0, last_accessed := .valid 0,
    expires_at := some 10 }

/-- C5 (code bug): over a durable store holding one active unexpired row
and one expired row, the constructor does not succeed with the unexpired
record loaded — the load loop hits the missing `sessions` attribute on
the selected row and the exception propagates out of the constructor. -/
theorem c5_constructor_raises_instead_of_loading :
    mkSessionStore true [c5row1, c5row2] 3600 = .error () :=
  rfl

/-- Record with an empty-string session id, the C6 counterexample input. -/
def c6rec : SessionRecord := { session_id := some "" }

/-- C6 counterexample: for the record whose `session_id` is the empty
string, `store_session` succeeds (returns `true`) and `has_session`
becomes `true`, but `get_session` returns "not found" rather than the
record, because `if not session_id` in `get_session` treats the falsy
empty string as absent. -/
theorem c6_counterexample :
    (store_session initSomeStore "u1" "github" c6rec 0 false).2 = true ∧
    has_session (store_session initSomeStore "u1" "github" c6rec 0 false).1
      "u1" "github" = true ∧
    get_session (store_session initSomeStore "u1" "github" c6rec 0 false).1
      "u1" "github" = .ok none ∧
    (PyResult.ok none ≠ PyResult.ok (some c6rec)) :=
  ⟨rfl, rfl, rfl, by decide⟩

/-- After a `store_session` that did not fail on the missing attribute or
the missing key, the state holds the new record in `sessions` and the new
id in the index, whatever the durable outcome was. -/
theorem store_session_state {s : Store} (u a : String) {r : SessionRecord}
    (now : Nat) (f : Bool) {m : List (String × SessionRecord)} {sid : String}
    (hm : s.sessions = some m) (hsid : r.session_id = some sid) :
    (store_session s u a r now f).1.sessions = some (dictInsert sid r m) ∧
    (store_session s u a r now f).1.user_app_sessions =
      dictInsert u (dictInsert a sid ((dictGet u s.user_app_sessions).getD []))
        s.user_app_sessions := by
  unfold store_session
  rw [hm, hsid]
  cases s.use_sqlite <;> cases f <;> simp

/-- C6 amended: if `store_session(u, a, r)` returns `true`, then
`has_session(u, a)` is `true`; and provided the stored `session_id` is a
non-empty string, `get_session(u, a)` returns exactly `r`. -/
theorem c6_amended_store_then_get (s : Store) (u a : String) (r : SessionRecord)
    (now : Nat) (f : Bool) (sid : String)
    (hsid : r.session_id = some sid) (hne : sid ≠ "")
    (h : (store_session s u a r now f).2 = true) :
    has_session (store_session s u a r now f).1 u a = true ∧
    get_session (store_session s u a r now f).1 u a = .ok (some r) := by
  obtain ⟨m, hm⟩ : ∃ m, s.sessions = some m := by
    cases hs : s.sessions with
    | none => rw [store_session, hs] at h; cases h
    | some m => exact ⟨m, rfl⟩
  obtain ⟨hsess, huas⟩ := store_session_state u a now f hm hsid
  constructor
  · rw [has_session, huas]
    simp [dictGet_insert_self]
  · rw [get_session, uasLookup, huas]
    simp [dictGet_insert_self, hne, hsess]

/-- Witness for the amended C6 at concrete inputs. -/
theorem c6_amended_witness :
    has_session (store_session initSomeStore "u1" "github"
      { session_id := some "sid-2" } 0 false).1 "u1" "github" = true ∧
    get_session (store_session initSomeStore "u1" "github"
      { session_id := some "sid-2" } 0 false).1 "u1" "github" =
      .ok (some { session_id := some "sid-2" }) :=
  c6_amended_store_then_get initSomeStore "u1" "github" { session_id := some "sid-2" }
    0 false "sid-2" rfl (by decide) rfl

/-- Record with no `expires_at`, the C9 failing input. -/
def c9rec : SessionRecord := { session_id := some "sid-9" }

/-- The durable row `store_session` writes for `c9rec` at time 100: its
`expires_at` is `100 + 86400`, not NULL. -/
def c9row : DbRow :=
  { session_id := "sid-9", user_id := "u9", app_slug := "app9", status := "active",
    metadata := none, created_at := .valid 100, last_accessed := .valid 100,
    expires_at := some 86500 }

/-- The in-memory state right after that store. -/
def c9Store : Store :=
  { use_sqlite := true, sessions := some [("sid-9", c9rec)],
    user_app_sessions := [("u9", [("app9", "sid-9")])], db := [c9row] }

/-- C9 (code bug): a record stored without `expires_at` is indeed never
removed from memory by the sweep (first conjunct, for every time), but
the durable row written for it carries `expires_at = now + 24h` rather
than no expiry (second conjunct), so a store constructed after that
time loads nothing — the record is not loaded back at any later time
(third conjunct). -/
theorem c9_no_expiry_record_gets_durable_expiry :
    (∀ now2 : Nat,
      (cleanup_expired_sessions c9Store now2 false).sessions = some [("sid-9", c9rec)]) ∧
    store_session initSomeStore "u9" "app9" c9rec 100 false = (c9Store, true) ∧
    mkSessionStore true [c9row] 86501 =
      .ok { use_sqlite := true, sessions := none, user_app_sessions := [], db := [c9row] } := by
  refine ⟨?_, rfl, rfl⟩
  intro now2
  simp [cleanup_expired_sessions, cleanup_run, c9Store, expiredList, sessionExpired,
    c9rec, sweepLoop, dbSweep]

/-- C10 (code bug): any serialization order of any batch of
`store_session` calls on a freshly constructed store leaves the store
exactly as constructed — every call returns `false` and zero records are
present afterward, however many distinct pairs were stored. -/
theorem c10_every_serialization_stores_nothing
    (reqs : List (String × String × SessionRecord)) (now nowCall : Nat) (f : Bool) :
    mkSessionStore true [] now = .ok emptyStore ∧
    runStores emptyStore reqs nowCall f = (emptyStore, reqs.map (fun _ => false)) := by
  refine ⟨rfl, ?_⟩
  induction reqs with
  | nil => rfl
  | cons hd t ih =>
    obtain ⟨u, a, r⟩ := hd
    show (let p := store_session emptyStore u a r nowCall f
          let q := runStores p.1 t nowCall f
          (q.1, p.2 :: q.2)) = _
    rw [show store_session emptyStore u a r nowCall f = (emptyStore, false) from rfl]
    simp [ih]

/-! ### Small lookup lemmas -/

theorem memSession_of_some {s : Store} {m : List (String × SessionRecord)}
    (h : s.sessions = some m) (sid : String) : memSession s sid = dictGet sid m := by
  simp [memSession, h]

theorem uasLookup_none_left {uas : List (String × List (String × String))} {u : String}
    (h : dictGet u uas = none) (a : String) : uasLookup uas u a = none := by
  simp [uasLookup, h]

theorem uasLookup_of_get {uas : List (String × List (String × String))} {u : String}
    {apps : List (String × String)} (h : dictGet u uas = some apps) (a : String) :
    uasLookup uas u a = dictGet a apps := by
  simp [uasLookup, h]

theorem mem_dictErase_of_ne {α : Type} {k0 k : String} {v : α} {l : List (String × α)}
    (h : (k0, v) ∈ l) (hne : k0 ≠ k) : (k0, v) ∈ dictErase k l := by
  induction l with
  | nil => cases h
  | cons p t ih =>
    obtain ⟨k', v'⟩ := p
    by_cases hk : k' = k
    · rcases List.mem_cons.mp h with heq | hmem
      · exfalso
        apply hne
        have := congrArg Prod.fst heq
        simpa [hk] using this
      · simpa [dictErase, hk] using ih hmem
    · rcases List.mem_cons.mp h with heq | hmem
      · simp [dictErase, hk, heq]
      · simp [dictErase, hk]
        exact Or.inr (ih hmem)

theorem dictGet_none_of_erase_nil {α : Type} {k : String} {l : List (String × α)}
    (h : dictErase k l = []) {k0 : String} (hne : k0 ≠ k) : dictGet k0 l = none := by
  cases hg : dictGet k0 l with
  | none => rfl
  | some v =>
    have hmem : (k0, v) ∈ dictErase k l := mem_dictErase_of_ne (mem_of_dictGet hg) hne
    rw [h] at hmem
    cases hmem

/-! ### `uasAfterRemove` lemmas -/

theorem eq_nil_of_isEmpty {α : Type} {l : List α} (h : l.isEmpty = true) : l = [] := by
  cases l with
  | nil => rfl
  | cons a t => simp [List.isEmpty] at h

theorem uasLookup_uasAfterRemove_self {uas : List (String × List (String × String))}
    {u : String} {apps : List (String × String)} (a : String) :
    uasLookup (uasAfterRemove uas u a apps) u a = none := by
  unfold uasAfterRemove
  split
  · exact uasLookup_none_left (by rw [dictGet_erase]; simp) a
  · rw [uasLookup_of_get (dictGet_insert_self u (dictErase a apps) uas) a, dictGet_erase]
    simp

theorem uasLookup_uasAfterRemove_absent {uas : List (String × List (String × String))}
    {u a u0 a0 : String} {apps : List (String × String)}
    (hget : dictGet u uas = some apps)
    (h : uasLookup uas u0 a0 = none) :
    uasLookup (uasAfterRemove uas u a apps) u0 a0 = none := by
  unfold uasAfterRemove
  by_cases hu : u0 = u
  · subst hu
    have happs : dictGet a0 apps = none := by rwa [uasLookup_of_get hget a0] at h
    split
    · exact uasLookup_none_left (by rw [dictGet_erase]; simp) a0
    · rw [uasLookup_of_get (dictGet_insert_self u0 (dictErase a apps) uas) a0, dictGet_erase]
      split
      · rfl
      · exact happs
  · have base : ∀ uas', dictGet u0 uas' = dictGet u0 uas →
        uasLookup uas' u0 a0 = none := by
      intro uas' he
      unfold uasLookup
      rw [he]
      unfold uasLookup at h
      exact h
    split
    · exact base _ (by rw [dictGet_erase, if_neg hu])
    · exact base _ (dictGet_insert_ne u0 u (dictErase a apps) uas hu)

theorem uasLookup_uasAfterRemove_other {uas : List (String × List (String × String))}
    {u a u0 a0 : String} {apps : List (String × String)}
    (hget : dictGet u uas = some apps)
    (hne : ¬ (u0 = u ∧ a0 = a)) :
    uasLookup (uasAfterRemove uas u a apps) u0 a0 = uasLookup uas u0 a0 := by
  unfold uasAfterRemove
  by_cases hu : u0 = u
  · subst hu
    have ha : ¬ (a0 = a) := fun hh => hne ⟨rfl, hh⟩
    rw [uasLookup_of_get hget a0]
    split
    · next hnil =>
      rw [uasLookup_none_left (by rw [dictGet_erase]; simp) a0,
        dictGet_none_of_erase_nil (eq_nil_of_isEmpty hnil) ha]
    · rw [uasLookup_of_get (dictGet_insert_self u0 (dictErase a apps) uas) a0,
        dictGet_erase, if_neg ha]
  · have base : ∀ uas', dictGet u0 uas' = dictGet u0 uas →
        uasLookup uas' u0 a0 = uasLookup uas u0 a0 := by
      intro uas' he
      unfold uasLookup
      rw [he]
    split
    · exact base _ (by rw [dictGet_erase, if_neg hu])
    · exact base _ (dictGet_insert_ne u0 u (dictErase a apps) uas hu)

/-! ### `remove_session` invariants -/

theorem remove_session_not_found {s : Store} {u a : String} (f : Bool)
    (h : uasLookup s.user_app_sessions u a = none) :
    remove_session s u a f = (s, .ok false) := by
  unfold remove_session
  split
  · rfl
  · next apps hu =>
    split
    · rfl
    · next sid ha =>
      rw [uasLookup_of_get hu a, ha] at h
      exact Option.noConfusion h

theorem remove_session_use_sqlite (s : Store) (u a : String) (f : Bool) :
    (remove_session s u a f).1.use_sqlite = s.use_sqlite := by
  unfold remove_session
  split
  · rfl
  · split
    · rfl
    · split
      · rfl
      · split
        · split <;> rfl
        · rfl

theorem remove_session_sessions_some {s : Store} {u a : String} {f : Bool}
    {m : List (String × SessionRecord)} (hs : s.sessions = some m) :
    ∃ m', (remove_session s u a f).1.sessions = some m' ∧ ∀ x ∈ m', x ∈ m := by
  unfold remove_session
  split
  · exact ⟨m, hs, fun x hx => hx⟩
  · split
    · exact ⟨m, hs, fun x hx => hx⟩
    · split
      · next hnone => rw [hs] at hnone; exact Option.noConfusion hnone
      · next m0 hm0 =>
        rw [hs] at hm0
        injection hm0 with hm0
        subst hm0
        split
        · split
          · exact ⟨_, rfl, fun x hx => mem_of_mem_dictErase hx⟩
          · exact ⟨_, rfl, fun x hx => mem_of_mem_dictErase hx⟩
        · exact ⟨_, rfl, fun x hx => mem_of_mem_dictErase hx⟩

theorem remove_session_memSession_none {s : Store} {u a : String} {f : Bool}
    {sid0 : String} (h : memSession s sid0 = none) :
    memSession (remove_session s u a f).1 sid0 = none := by
  unfold remove_session
  split
  · exact h
  · split
    · exact h
    · split
      · next hnone => simp [memSession, hnone]
      · next m0 hm0 =>
        have hg : dictGet sid0 m0 = none := by
          rw [memSession_of_some hm0 sid0] at h
          exact h
        have hg2 : ∀ sid1, dictGet sid0 (dictErase sid1 m0) = none := by
          intro sid1
          rw [dictGet_erase]
          split
          · rfl
          · exact hg
        split
        · split
          · simp [memSession, hg2]
          · simp [memSession, hg2]
        · simp [memSession, hg2]

theorem remove_session_memSession_some {s : Store} {u a : String} {f : Bool}
    {sid0 : String} {r0 : SessionRecord}
    (h : memSession (remove_session s u a f).1 sid0 = some r0) :
    memSession s sid0 = some r0 := by
  unfold remove_session at h
  split at h
  · exact h
  · next apps hu =>
    split at h
    · exact h
    · next sid ha =>
      split at h
      · next hnone =>
        simp [memSession, hnone] at h
      · next m0 hm0 =>
        rw [memSession_of_some hm0 sid0]
        have hg : dictGet sid0 (dictErase sid m0) = some r0 := by
          revert h
          split
          · split
            · intro h; simpa [memSession] using h
            · intro h; simpa [memSession] using h
          · intro h; simpa [memSession] using h
        rw [dictGet_erase] at hg
        revert hg
        split
        · exact fun hg => Option.noConfusion hg
        · exact fun hg => hg

theorem remove_session_uas_cleared (s : Store) (u a : String) (f : Bool) :
    uasLookup (remove_session s u a f).1.user_app_sessions u a = none := by
  unfold remove_session
  split
  · next hu => exact uasLookup_none_left hu a
  · next apps hu =>
    split
    · next ha => rw [uasLookup_of_get hu a]; exact ha
    · next sid ha =>
      have key : uasLookup (uasAfterRemove s.user_app_sessions u a apps) u a = none :=
        uasLookup_uasAfterRemove_self a
      split
      · exact key
      · split
        · split
          · exact key
          · exact key
        · exact key

theorem remove_session_uas_none {s : Store} {u0 a0 : String} (u a : String) (f : Bool)
    (h : uasLookup s.user_app_sessions u0 a0 = none) :
    uasLookup (remove_session s u a f).1.user_app_sessions u0 a0 = none := by
  unfold remove_session
  split
  · exact h
  · next apps hu =>
    split
    · exact h
    · next sid ha =>
      have key : uasLookup (uasAfterRemove s.user_app_sessions u a apps) u0 a0 = none :=
        uasLookup_uasAfterRemove_absent hu h
      split
      · exact key
      · split
        · split
          · exact key
          · exact key
        · exact key

theorem remove_session_uas_other {s : Store} {u a u0 a0 : String} (f : Bool)
    (hne : ¬ (u0 = u ∧ a0 = a)) :
    uasLookup (remove_session s u a f).1.user_app_sessions u0 a0 =
      uasLookup s.user_app_sessions u0 a0 := by
  unfold remove_session
  split
  · rfl
  · next apps hu =>
    split
    · rfl
    · next sid ha =>
      have key : uasLookup (uasAfterRemove s.user_app_sessions u a apps) u0 a0 =
          uasLookup s.user_app_sessions u0 a0 :=
        uasLookup_uasAfterRemove_other hu hne
      split
      · exact key
      · split
        · split
          · exact key
          · exact key
        · exact key

theorem remove_session_erases_target {s : Store} {u a : String} {f : Bool}
    {m : List (String × SessionRecord)} {sid0 : String}
    (hs : s.sessions = some m)
    (hp : uasLookup s.user_app_sessions u a = some sid0) :
    memSession (remove_session s u a f).1 sid0 = none := by
  unfold remove_session
  split
  · next hu => rw [uasLookup_none_left hu a] at hp; exact Option.noConfusion hp
  · next apps hu =>
    split
    · next ha =>
      rw [uasLookup_of_get hu a, ha] at hp
      exact Option.noConfusion hp
    · next sid ha =>
      have hsid : sid = sid0 := by
        rw [uasLookup_of_get hu a, ha] at hp
        injection hp
      subst hsid
      split
      · next hnone => rw [hs] at hnone; exact Option.noConfusion hnone
      · next m0 hm0 =>
        rw [hs] at hm0
        injection hm0 with hm0
        subst hm0
        have hg : dictGet sid (dictErase sid m) = none := by
          rw [dictGet_erase]
          simp
        split
        · split
          · simp [memSession, hg]
          · simp [memSession, hg]
        · simp [memSession, hg]

theorem remove_session_ok {s : Store} {f : Bool} (u a : String)
    {m : List (String × SessionRecord)} (hs : s.sessions = some m)
    (hcond : s.use_sqlite = true → f = false) :
    ∃ b, (remove_session s u a f).2 = .ok b := by
  unfold remove_session
  split
  · exact ⟨false, rfl⟩
  · split
    · exact ⟨false, rfl⟩
    · split
      · next hnone => rw [hs] at hnone; exact Option.noConfusion hnone
      · next m0 hm0 =>
        by_cases husq : s.use_sqlite
        · have hf : f = false := hcond husq
          subst hf
          exact ⟨true, by simp [husq]⟩
        · exact ⟨true, by simp [husq]⟩

theorem remove_session_memSession_other {s : Store} {u a : String} {f : Bool}
    {sidX sid0 : String}
    (hp : uasLookup s.user_app_sessions u a = some sidX) (hne : sid0 ≠ sidX) :
    memSession (remove_session s u a f).1 sid0 = memSession s sid0 := by
  unfold remove_session
  split
  · rfl
  · next apps hu =>
    split
    · rfl
    · next sid ha =>
      have hsid : sid = sidX := by
        rw [uasLookup_of_get hu a, ha] at hp
        injection hp
      subst hsid
      split
      · next hnone => simp [memSession, hnone]
      · next m0 hm0 =>
        have hg : dictGet sid0 (dictErase sid m0) = dictGet sid0 m0 := by
          rw [dictGet_erase, if_neg hne]
        split
        · split
          · simp [memSession, hm0, hg]
          · simp [memSession, hm0, hg]
        · simp [memSession, hm0, hg]

theorem remove_session_db_subset {s : Store} {u a : String} {f : Bool} :
    ∀ row ∈ (remove_session s u a f).1.db, row ∈ s.db := by
  unfold remove_session
  split
  · exact fun row h => h
  · split
    · exact fun row h => h
    · split
      · exact fun row h => h
      · split
        · split
          · exact fun row h => h
          · exact fun row h => List.mem_of_mem_filter h
        · exact fun row h => h

theorem remove_session_db_same_of_not_sqlite {s : Store} {u a : String} {f : Bool}
    (h : s.use_sqlite = false) : (remove_session s u a f).1.db = s.db := by
  unfold remove_session
  split
  · rfl
  · split
    · rfl
    · split
      · rfl
      · split
        · next husq => rw [h] at husq; exact Bool.noConfusion husq
        · rfl

/-! ### Sweep-loop invariants -/

theorem sweepLoop_use_sqlite (f : Bool) (L : List String) :
    ∀ st : Store, (sweepLoop f L st).1.use_sqlite = st.use_sqlite := by
  induction L with
  | nil => intro st; rfl
  | cons sid rest ih =>
    intro st
    simp only [sweepLoop]
    split
    · rfl
    · next m hm =>
      split
      · exact ih st
      · next r hr =>
        split
        · next u a hu2 ha2 =>
          split
          · exact ih st
          · split
            · next st' b heq =>
              rw [ih st']
              have := remove_session_use_sqlite st u a f
              rw [heq] at this
              exact this
            · next st' heq =>
              have := remove_session_use_sqlite st u a f
              rw [heq] at this
              exact this
        · exact ih st
        · exact ih st

theorem sweepLoop_memSession_none (f : Bool) (L : List String) {sid0 : String} :
    ∀ st : Store, memSession st sid0 = none →
      memSession (sweepLoop f L st).1 sid0 = none := by
  induction L with
  | nil => intro st h; exact h
  | cons sid rest ih =>
    intro st h
    simp only [sweepLoop]
    split
    · exact h
    · next m hm =>
      split
      · exact ih st h
      · next r hr =>
        split
        · next u a hu2 ha2 =>
          split
          · exact ih st h
          · split
            · next st' b heq =>
              refine ih st' ?_
              have := remove_session_memSession_none (u := u) (a := a) (f := f) h
              rw [heq] at this
              exact this
            · next st' heq =>
              have := remove_session_memSession_none (u := u) (a := a) (f := f) h
              rw [heq] at this
              exact this
        · exact ih st h
        · exact ih st h

theorem sweepLoop_memSession_some (f : Bool) (L : List String) {sid0 : String}
    {r0 : SessionRecord} :
    ∀ st : Store, memSession (sweepLoop f L st).1 sid0 = some r0 →
      memSession st sid0 = some r0 := by
  induction L with
  | nil => intro st h; exact h
  | cons sid rest ih =>
    intro st h
    revert h
    simp only [sweepLoop]
    split
    · exact fun h => h
    · next m hm =>
      split
      · exact ih st
      · next r hr =>
        split
        · next u a hu2 ha2 =>
          split
          · exact ih st
          · split
            · next st' b heq =>
              intro h
              have h' := ih st' h
              exact remove_session_memSession_some (by rw [heq]; exact h')
            · next st' heq =>
              intro h
              exact remove_session_memSession_some (by rw [heq]; exact h)
        · exact ih st
        · exact ih st

theorem sweepLoop_uas_none (f : Bool) (L : List String) {u0 a0 : String} :
    ∀ st : Store, uasLookup st.user_app_sessions u0 a0 = none →
      uasLookup (sweepLoop f L st).1.user_app_sessions u0 a0 = none := by
  induction L with
  | nil => intro st h; exact h
  | cons sid rest ih =>
    intro st h
    simp only [sweepLoop]
    split
    · exact h
    · next m hm =>
      split
      · exact ih st h
      · next r hr =>
        split
        · next u a hu2 ha2 =>
          split
          · exact ih st h
          · split
            · next st' b heq =>
              refine ih st' ?_
              have := remove_session_uas_none (s := st) u a f h
              rw [heq] at this
              exact this
            · next st' heq =>
              have := remove_session_uas_none (s := st) u a f h
              rw [heq] at this
              exact this
        · exact ih st h
        · exact ih st h

theorem sweepLoop_sessions_some (f : Bool) (L : List String) :
    ∀ (st : Store) (m : List (String × SessionRecord)), st.sessions = some m →
      ∃ m', (sweepLoop f L st).1.sessions = some m' ∧ ∀ x ∈ m', x ∈ m := by
  induction L with
  | nil => intro st m hs; exact ⟨m, hs, fun x hx => hx⟩
  | cons sid rest ih =>
    intro st m hs
    simp only [sweepLoop]
    split
    · exact ⟨m, hs, fun x hx => hx⟩
    · next m0 hm0 =>
      have hm0' : m0 = m := by rw [hs] at hm0; injection hm0 with h'; exact h'.symm
      subst hm0'
      split
      · exact ih st m0 hs
      · next r hr =>
        split
        · next u a hu2 ha2 =>
          split
          · exact ih st m0 hs
          · split
            · next st' b heq =>
              obtain ⟨m1, hm1, hsub1⟩ :=
                remove_session_sessions_some (u := u) (a := a) (f := f) hs
              rw [heq] at hm1
              obtain ⟨m2, hm2, hsub2⟩ := ih st' m1 hm1
              exact ⟨m2, hm2, fun x hx => hsub1 x (hsub2 x hx)⟩
            · next st' heq =>
              obtain ⟨m1, hm1, hsub1⟩ :=
                remove_session_sessions_some (u := u) (a := a) (f := f) hs
              rw [heq] at hm1
              exact ⟨m1, hm1, hsub1⟩
        · exact ih st m0 hs
        · exact ih st m0 hs

theorem sweepLoop_db_subset (f : Bool) (L : List String) :
    ∀ st : Store, ∀ row ∈ (sweepLoop f L st).1.db, row ∈ st.db := by
  induction L with
  | nil => intro st row h; exact h
  | cons sid rest ih =>
    intro st
    simp only [sweepLoop]
    split
    · exact fun row h => h
    · next m hm =>
      split
      · exact ih st
      · next r hr =>
        split
        · next u a hu2 ha2 =>
          split
          · exact ih st
          · split
            · next st' b heq =>
              intro row hrow
              have h1 := ih st' row hrow
              have h2 := remove_session_db_subset (s := st) (u := u) (a := a) (f := f)
              rw [heq] at h2
              exact h2 row h1
            · next st' heq =>
              intro row hrow
              have h2 := remove_session_db_subset (s := st) (u := u) (a := a) (f := f)
              rw [heq] at h2
              exact h2 row hrow
        · exact ih st
        · exact ih st

theorem sweepLoop_ok (f : Bool) (L : List String) :
    ∀ (st : Store) (m : List (String × SessionRecord)), st.sessions = some m →
      (st.use_sqlite = true → f = false) →
      ∃ st', sweepLoop f L st = (st', .ok ()) := by
  induction L with
  | nil => intro st m hs hcond; exact ⟨st, rfl⟩
  | cons sid rest ih =>
    intro st m hs hcond
    simp only [sweepLoop]
    split
    · next hnone => rw [hs] at hnone; exact Option.noConfusion hnone
    · next m0 hm0 =>
      split
      · exact ih st m hs hcond
      · next r hr =>
        split
        · next u a hu2 ha2 =>
          split
          · exact ih st m hs hcond
          · split
            · next st' b heq =>
              obtain ⟨m1, hm1, _⟩ :=
                remove_session_sessions_some (u := u) (a := a) (f := f) hs
              rw [heq] at hm1
              have husq := remove_session_use_sqlite st u a f
              rw [heq] at husq
              exact ih st' m1 hm1 (fun hq => hcond (husq ▸ hq))
            · next st' heq =>
              obtain ⟨b, hb⟩ := remove_session_ok (f := f) u a hs hcond
              rw [heq] at hb
              exact PyResult.noConfusion hb
        · exact ih st m hs hcond
        · exact ih st m hs hcond

/-- After one pass of the removal loop, a surviving record that was on
the worklist and carries usable `user_id`/`app_slug` fields has no index
entry left for that pair: its `remove_session` call deleted the pair (or
the pair was already absent), and nothing in the loop re-creates index
entries. -/
theorem sweepLoop_clears_pair (f : Bool) (L : List String) :
    ∀ (st : Store) (sid : String) (r0 : SessionRecord) (u a : String),
      (st.use_sqlite = true → f = false) →
      sid ∈ L →
      memSession (sweepLoop f L st).1 sid = some r0 →
      r0.user_id = some u → ¬ (u = "") → r0.app_slug = some a → ¬ (a = "") →
      uasLookup (sweepLoop f L st).1.user_app_sessions u a = none := by
  induction L with
  | nil => intro st sid r0 u a _ hmem; cases hmem
  | cons h0 rest ih =>
    intro st sid r0 u a hcond hmem hfin hu hu' ha ha'
    cases hsess : st.sessions with
    | none =>
      simp only [sweepLoop, hsess] at hfin
      rw [memSession, hsess] at hfin
      exact Option.noConfusion hfin
    | some m =>
      cases hget : dictGet h0 m with
      | none =>
        simp only [sweepLoop, hsess, hget] at hfin ⊢
        rcases List.mem_cons.mp hmem with hcase | hmem'
        · subst hcase
          have hnone : memSession st sid = none := by
            rw [memSession_of_some hsess]; exact hget
          rw [sweepLoop_memSession_none f rest st hnone] at hfin
          exact Option.noConfusion hfin
        · exact ih st sid r0 u a hcond hmem' hfin hu hu' ha ha'
      | some r =>
        cases hru : r.user_id with
        | none =>
          simp only [sweepLoop, hsess, hget, hru] at hfin ⊢
          rcases List.mem_cons.mp hmem with hcase | hmem'
          · subst hcase
            have hst : memSession st sid = some r0 := sweepLoop_memSession_some f rest st hfin
            rw [memSession_of_some hsess, hget] at hst
            injection hst with hst
            rw [hst] at hru
            rw [hru] at hu
            exact Option.noConfusion hu
          · exact ih st sid r0 u a hcond hmem' hfin hu hu' ha ha'
        | some uu =>
          cases hra : r.app_slug with
          | none =>
            simp only [sweepLoop, hsess, hget, hru, hra] at hfin ⊢
            rcases List.mem_cons.mp hmem with hcase | hmem'
            · subst hcase
              have hst : memSession st sid = some r0 := sweepLoop_memSession_some f rest st hfin
              rw [memSession_of_some hsess, hget] at hst
              injection hst with hst
              rw [hst] at hra
              rw [hra] at ha
              exact Option.noConfusion ha
            · exact ih st sid r0 u a hcond hmem' hfin hu hu' ha ha'
          | some aa =>
            by_cases hemp : uu = "" ∨ aa = ""
            · simp only [sweepLoop, hsess, hget, hru, hra, if_pos hemp] at hfin ⊢
              rcases List.mem_cons.mp hmem with hcase | hmem'
              · subst hcase
                have hst : memSession st sid = some r0 :=
                  sweepLoop_memSession_some f rest st hfin
                rw [memSession_of_some hsess, hget] at hst
                injection hst with hst
                subst hst
                rw [hru] at hu
                injection hu with hu
                rw [hra] at ha
                injection ha with ha
                subst hu; subst ha
                rcases hemp with h1 | h1
                · exact absurd h1 hu'
                · exact absurd h1 ha'
              · exact ih st sid r0 u a hcond hmem' hfin hu hu' ha ha'
            · cases hrm : remove_session st uu aa f with
              | mk st' res =>
                cases res with
                | raised =>
                  obtain ⟨b, hb⟩ := remove_session_ok uu aa hsess hcond
                  rw [hrm] at hb
                  exact PyResult.noConfusion hb
                | ok b =>
                  simp only [sweepLoop, hsess, hget, hru, hra, if_neg hemp, hrm] at hfin ⊢
                  have hcond' : st'.use_sqlite = true → f = false := by
                    have hq := remove_session_use_sqlite st uu aa f
                    rw [hrm] at hq
                    intro hx
                    exact hcond (hq ▸ hx)
                  rcases List.mem_cons.mp hmem with hcase | hmem'
                  · subst hcase
                    have hst' : memSession st' sid = some r0 :=
                      sweepLoop_memSession_some f rest st' hfin
                    have hst : memSession st sid = some r0 :=
                      remove_session_memSession_some (by rw [hrm]; exact hst')
                    rw [memSession_of_some hsess, hget] at hst
                    injection hst with hst
                    subst hst
                    rw [hru] at hu
                    injection hu with hu
                    rw [hra] at ha
                    injection ha with ha
                    subst hu; subst ha
                    have hcl := remove_session_uas_cleared st uu aa f
                    rw [hrm] at hcl
                    exact sweepLoop_uas_none f rest st' hcl
                  · exact ih st' sid r0 u a hcond' hmem' hfin hu hu' ha ha'

/-- The removal loop is the identity on a state in which every listed
record's (user, app) pair is already gone from the index: each step either
skips the record or calls `remove_session` on an absent pair, which
returns `false` without touching anything. -/
theorem sweepLoop_fix (f : Bool) (L : List String) :
    ∀ st : Store,
      (∀ sid ∈ L, ∀ r, memSession st sid = some r →
        ∀ u a, r.user_id = some u → ¬ (u = "") → r.app_slug = some a → ¬ (a = "") →
          uasLookup st.user_app_sessions u a = none) →
      (sweepLoop f L st).1 = st := by
  induction L with
  | nil => intro st _; rfl
  | cons h0 rest ih =>
    intro st hcondall
    have hrest : ∀ sid ∈ rest, ∀ r, memSession st sid = some r →
        ∀ u a, r.user_id = some u → ¬ (u = "") → r.app_slug = some a → ¬ (a = "") →
          uasLookup st.user_app_sessions u a = none :=
      fun sid hmem => hcondall sid (List.mem_cons_of_mem _ hmem)
    cases hsess : st.sessions with
    | none => simp only [sweepLoop, hsess]
    | some m =>
      cases hget : dictGet h0 m with
      | none =>
        simp only [sweepLoop, hsess, hget]
        exact ih st hrest
      | some r =>
        cases hru : r.user_id with
        | none =>
          simp only [sweepLoop, hsess, hget, hru]
          exact ih st hrest
        | some uu =>
          cases hra : r.app_slug with
          | none =>
            simp only [sweepLoop, hsess, hget, hru, hra]
            exact ih st hrest
          | some aa =>
            by_cases hemp : uu = "" ∨ aa = ""
            · simp only [sweepLoop, hsess, hget, hru, hra, if_pos hemp]
              exact ih st hrest
            · have hu' : ¬ (uu = "") := fun h => hemp (Or.inl h)
              have ha' : ¬ (aa = "") := fun h => hemp (Or.inr h)
              have hpair : uasLookup st.user_app_sessions uu aa = none :=
                hcondall h0 (List.mem_cons_self _ _) r
                  (by rw [memSession_of_some hsess]; exact hget) uu aa hru hu' hra ha'
              have hrm : remove_session st uu aa f = (st, .ok false) :=
                remove_session_not_found f hpair
              simp only [sweepLoop, hsess, hget, hru, hra, if_neg hemp, hrm]
              exact ih st hrest

/-- A listed record with an unparseable-or-whatever reason to be on the
worklist, whose pair entry currently points at it, ends up removed from
the in-memory map by the removal loop, provided no durable delete fails
(`remove_session` then cannot raise and abort the loop). -/
theorem sweepLoop_removes (f : Bool) (L : List String) :
    ∀ (st : Store) (sid : String) (r : SessionRecord) (u a : String),
      (st.use_sqlite = true → f = false) →
      sid ∈ L →
      (memSession st sid = none ∨
        (memSession st sid = some r ∧ uasLookup st.user_app_sessions u a = some sid)) →
      r.user_id = some u → ¬ (u = "") → r.app_slug = some a → ¬ (a = "") →
      memSession (sweepLoop f L st).1 sid = none := by
  induction L with
  | nil => intro st sid r u a _ hmem; cases hmem
  | cons h0 rest ih =>
    intro st sid r u a hcond hmem hinv hu hu' ha ha'
    rcases hinv with hnone | ⟨hsome, hpair⟩
    · exact sweepLoop_memSession_none f (h0 :: rest) st hnone
    cases hsess : st.sessions with
    | none =>
      rw [memSession, hsess] at hsome
      exact Option.noConfusion hsome
    | some m =>
      have hsid_get : dictGet sid m = some r := by
        rw [memSession_of_some hsess] at hsome
        exact hsome
      cases hget : dictGet h0 m with
      | none =>
        rcases List.mem_cons.mp hmem with hcase | hmem'
        · rw [hcase] at hsid_get
          rw [hsid_get] at hget
          exact Option.noConfusion hget
        · simp only [sweepLoop, hsess, hget]
          exact ih st sid r u a hcond hmem' (Or.inr ⟨hsome, hpair⟩) hu hu' ha ha'
      | some rh =>
        have hhead : sid = h0 → rh = r := by
          intro hcase
          rw [hcase] at hsid_get
          rw [hsid_get] at hget
          injection hget with hget
          exact hget.symm
        cases hru : rh.user_id with
        | none =>
          rcases List.mem_cons.mp hmem with hcase | hmem'
          · rw [hhead hcase] at hru
            rw [hru] at hu
            exact Option.noConfusion hu
          · simp only [sweepLoop, hsess, hget, hru]
            exact ih st sid r u a hcond hmem' (Or.inr ⟨hsome, hpair⟩) hu hu' ha ha'
        | some uu =>
          cases hra : rh.app_slug with
          | none =>
            rcases List.mem_cons.mp hmem with hcase | hmem'
            · rw [hhead hcase] at hra
              rw [hra] at ha
              exact Option.noConfusion ha
            · simp only [sweepLoop, hsess, hget, hru, hra]
              exact ih st sid r u a hcond hmem' (Or.inr ⟨hsome, hpair⟩) hu hu' ha ha'
          | some aa =>
            by_cases hemp : uu = "" ∨ aa = ""
            · rcases List.mem_cons.mp hmem with hcase | hmem'
              · exfalso
                have hre : rh = r := hhead hcase
                rw [hre] at hru hra
                rw [hru] at hu
                injection hu with hu
                rw [hra] at ha
                injection ha with ha
                rcases hemp with h1 | h1
                · exact hu' (hu ▸ h1)
                · exact ha' (ha ▸ h1)
              · simp only [sweepLoop, hsess, hget, hru, hra, if_pos hemp]
                exact ih st sid r u a hcond hmem' (Or.inr ⟨hsome, hpair⟩) hu hu' ha ha'
            · cases hrm : remove_session st uu aa f with
              | mk st' res =>
                cases res with
                | raised =>
                  obtain ⟨b, hb⟩ := remove_session_ok uu aa hsess hcond
                  rw [hrm] at hb
                  exact PyResult.noConfusion hb
                | ok b =>
                  simp only [sweepLoop, hsess, hget, hru, hra, if_neg hemp, hrm]
                  have hcond' : st'.use_sqlite = true → f = false := by
                    have hq := remove_session_use_sqlite st uu aa f
                    rw [hrm] at hq
                    intro hx
                    exact hcond (hq ▸ hx)
                  rcases List.mem_cons.mp hmem with hcase | hmem'
                  · have hre : rh = r := hhead hcase
                    rw [hre] at hru hra
                    rw [hru] at hu
                    injection hu with huv
                    rw [hra] at ha
                    injection ha with hav
                    have hpair' : uasLookup st.user_app_sessions uu aa = some sid := by
                      rw [huv, hav]
                      exact hpair
                    have herase := remove_session_erases_target (f := f) hsess hpair'
                    rw [hrm] at herase
                    exact sweepLoop_memSession_none f rest st' herase
                  · cases hx : uasLookup st.user_app_sessions uu aa with
                    | none =>
                      have hrm2 := remove_session_not_found (s := st) (u := uu) (a := aa) f hx
                      rw [hrm] at hrm2
                      injection hrm2 with hst' _
                      rw [hst']
                      exact ih st sid r u a hcond hmem' (Or.inr ⟨hsome, hpair⟩) hu hu' ha ha'
                    | some sidX =>
                      by_cases hxs : sidX = sid
                      · rw [hxs] at hx
                        have herase := remove_session_erases_target (f := f) hsess hx
                        rw [hrm] at herase
                        exact sweepLoop_memSession_none f rest st' herase
                      · have hmem2 : memSession st' sid = some r := by
                          have hneq : sid ≠ sidX := fun h => hxs h.symm
                          have hq := remove_session_memSession_other (f := f) hx hneq
                          rw [hrm] at hq
                          rw [hq]
                          exact hsome
                        have hne2 : ¬ (u = uu ∧ a = aa) := by
                          rintro ⟨h1, h2⟩
                          rw [← h1, ← h2] at hx
                          rw [hpair] at hx
                          injection hx with hx
                          exact hxs hx.symm
                        have hpair2 : uasLookup st'.user_app_sessions u a = some sid := by
                          have hq := remove_session_uas_other (s := st) f hne2
                          rw [hrm] at hq
                          rw [hq]
                          exact hpair
                        exact ih st' sid r u a hcond' hmem'
                          (Or.inr ⟨hmem2, hpair2⟩) hu hu' ha ha'

/-! ### Expired-list and durable-sweep lemmas -/

theorem expiredList_mem_intro {m : List (String × SessionRecord)} {now : Nat}
    {sid : String} {r : SessionRecord}
    (h : (sid, r) ∈ m) (he : sessionExpired r now = true) : sid ∈ expiredList m now := by
  unfold expiredList
  exact List.mem_map.mpr ⟨(sid, r), List.mem_filter.mpr ⟨h, he⟩, rfl⟩

theorem expiredList_mem_elim {m : List (String × SessionRecord)} {now : Nat} {sid : String}
    (h : sid ∈ expiredList m now) :
    ∃ r, (sid, r) ∈ m ∧ sessionExpired r now = true := by
  unfold expiredList at h
  obtain ⟨⟨sid', r⟩, hx, hfst⟩ := List.mem_map.mp h
  obtain ⟨hm, hp⟩ := List.mem_filter.mp hx
  cases hfst
  exact ⟨r, hm, hp⟩

theorem dbSweep_keepAll (db : List DbRow) (now : Nat) :
    ∀ row ∈ dbSweep db now, dbKeep row now = true :=
  fun _ h => (List.mem_filter.mp h).2

theorem dbSweep_eq_self {db : List DbRow} {now : Nat}
    (h : ∀ row ∈ db, dbKeep row now = true) : dbSweep db now = db :=
  List.filter_eq_self.mpr h

/-! ### Unfolding `cleanup_expired_sessions` by case -/

theorem cleanup_eq_of_sqlite_fail {s : Store} {now : Nat} (h : s.use_sqlite = true) :
    cleanup_expired_sessions s now true = s := by
  simp [cleanup_expired_sessions, cleanup_run, h]

theorem cleanup_run_eq_none {s : Store} (now : Nat) {f : Bool}
    (hok : (s.use_sqlite && f) = false) (hs : s.sessions = none) :
    cleanup_run s now f =
      ((if s.use_sqlite then { s with db := dbSweep s.db now } else s), .raised) := by
  unfold cleanup_run
  cases husq : s.use_sqlite
  · simp [hs]
  · rw [husq, Bool.true_and] at hok
    simp [hok, hs]

theorem cleanup_run_eq_some {s : Store} (now : Nat) {f : Bool}
    {m : List (String × SessionRecord)}
    (hok : (s.use_sqlite && f) = false) (hs : s.sessions = some m) :
    cleanup_run s now f =
      sweepLoop f (expiredList m now)
        (if s.use_sqlite then { s with db := dbSweep s.db now } else s) := by
  unfold cleanup_run
  cases husq : s.use_sqlite
  · simp [hs]
  · rw [husq, Bool.true_and] at hok
    simp [hok, hs]

/-- Re-sweeping a database whose rows all survive the sweep changes
nothing, whether or not SQLite is in use. -/
theorem if_sweep_eq_self {s' : Store} {now : Nat}
    (hkeep : s'.use_sqlite = true → ∀ row ∈ s'.db, dbKeep row now = true) :
    (if s'.use_sqlite then { s' with db := dbSweep s'.db now } else s') = s' := by
  cases husq : s'.use_sqlite
  · simp [husq]
  · rw [if_pos rfl, dbSweep_eq_self (hkeep husq), ← husq]

/-- C7: `cleanup_expired_sessions` is idempotent when the time does not
advance and the durable layer behaves the same way in both calls: the
second call finds nothing new to delete durably (the sweep filter is
idempotent), and every collected id either is gone from memory or has
lost its index pair during the first call, so every `remove_session` of
the second call returns `false` without mutating — the second call
removes zero records and returns the same store. -/
theorem c7_cleanup_idempotent (s : Store) (now : Nat) (f : Bool) :
    cleanup_expired_sessions (cleanup_expired_sessions s now f) now f =
      cleanup_expired_sessions s now f := by
  by_cases hA : (s.use_sqlite && f) = true
  · have husq : s.use_sqlite = true := (Bool.and_eq_true _ _ |>.mp hA).1
    have hf : f = true := (Bool.and_eq_true _ _ |>.mp hA).2
    subst hf
    have h1 : cleanup_expired_sessions s now true = s := cleanup_eq_of_sqlite_fail husq
    rw [h1]
    exact h1
  · have hok : (s.use_sqlite && f) = false := by
      cases hq : (s.use_sqlite && f)
      · rfl
      · exact absurd hq hA
    have hcond : s.use_sqlite = true → f = false := by
      intro hq
      cases hqf : f
      · rfl
      · rw [hq, hqf] at hok
        exact Bool.noConfusion hok
    cases hs : s.sessions with
    | none =>
      have h1 : cleanup_expired_sessions s now f =
          (if s.use_sqlite then { s with db := dbSweep s.db now } else s) := by
        unfold cleanup_expired_sessions
        rw [cleanup_run_eq_none now hok hs]
      have hAusq : (if s.use_sqlite then { s with db := dbSweep s.db now } else s).use_sqlite
          = s.use_sqlite := by
        cases husq : s.use_sqlite <;> simp [husq]
      have hAsess : (if s.use_sqlite then { s with db := dbSweep s.db now } else s).sessions
          = none := by
        cases husq : s.use_sqlite <;> simp [husq, hs]
      have hokA : ((if s.use_sqlite then { s with db := dbSweep s.db now } else s).use_sqlite
          && f) = false := by
        rw [hAusq]
        exact hok
      have hAkeep : (if s.use_sqlite then { s with db := dbSweep s.db now } else s).use_sqlite
            = true →
          ∀ row ∈ (if s.use_sqlite then { s with db := dbSweep s.db now } else s).db,
            dbKeep row now = true := by
        rw [hAusq]
        intro husq row hrow
        rw [husq] at hrow
        simp only [if_pos rfl] at hrow
        exact dbSweep_keepAll s.db now row hrow
      rw [h1]
      unfold cleanup_expired_sessions
      rw [cleanup_run_eq_none now hokA hAsess]
      exact if_sweep_eq_self hAkeep
    | some m =>
      have h1 : cleanup_expired_sessions s now f =
          (sweepLoop f (expiredList m now)
            (if s.use_sqlite then { s with db := dbSweep s.db now } else s)).1 := by
        unfold cleanup_expired_sessions
        rw [cleanup_run_eq_some now hok hs]
      have hs0sess : (if s.use_sqlite then { s with db := dbSweep s.db now } else s).sessions
          = some m := by
        cases husq : s.use_sqlite <;> simp [husq, hs]
      have hs0usq : (if s.use_sqlite then { s with db := dbSweep s.db now } else s).use_sqlite
          = s.use_sqlite := by
        cases husq : s.use_sqlite <;> simp [husq]
      obtain ⟨m1, hm1, hsub⟩ := sweepLoop_sessions_some f (expiredList m now)
        (if s.use_sqlite then { s with db := dbSweep s.db now } else s) m hs0sess
      have hs1usq : (sweepLoop f (expiredList m now)
          (if s.use_sqlite then { s with db := dbSweep s.db now } else s)).1.use_sqlite
          = s.use_sqlite := by
        rw [sweepLoop_use_sqlite, hs0usq]
      have hok1 : ((sweepLoop f (expiredList m now)
          (if s.use_sqlite then { s with db := dbSweep s.db now } else s)).1.use_sqlite && f)
          = false := by
        rw [hs1usq]
        exact hok
      have hkeep1 : (sweepLoop f (expiredList m now)
            (if s.use_sqlite then { s with db := dbSweep s.db now } else s)).1.use_sqlite
            = true →
          ∀ row ∈ (sweepLoop f (expiredList m now)
            (if s.use_sqlite then { s with db := dbSweep s.db now } else s)).1.db,
            dbKeep row now = true := by
        rw [hs1usq]
        intro husq row hrow
        have h2 := sweepLoop_db_subset f (expiredList m now)
          (if s.use_sqlite then { s with db := dbSweep s.db now } else s) row hrow
        rw [husq] at h2
        simp only [if_pos rfl] at h2
        exact dbSweep_keepAll s.db now row h2
      rw [h1]
      unfold cleanup_expired_sessions
      rw [cleanup_run_eq_some now hok1 hm1]
      rw [if_sweep_eq_self hkeep1]
      apply sweepLoop_fix
      intro sid hsid r hmemr u a hu hu' ha ha'
      have hcond0 : (if s.use_sqlite then { s with db := dbSweep s.db now } else s).use_sqlite
          = true → f = false := by
        rw [hs0usq]
        exact hcond
      have hmemE1 : sid ∈ expiredList m now := by
        obtain ⟨rx, hrx, hex⟩ := expiredList_mem_elim hsid
        exact expiredList_mem_intro (hsub _ hrx) hex
      exact sweepLoop_clears_pair f (expiredList m now)
        (if s.use_sqlite then { s with db := dbSweep s.db now } else s)
        sid r u a hcond0 hmemE1 hmemr hu hu' ha ha'

/-- Record with an unparseable `expires_at` but no `user_id` key, the C8
counterexample input. -/
def c8rec : SessionRecord :=
  { session_id := some "sid-1", expires_at := some .malformed }

/-- Store holding only that record, with an empty index. -/
def c8Store : Store :=
  { use_sqlite := true, sessions := some [("sid-1", c8rec)],
    user_app_sessions := [], db := [] }

/-- C8 counterexample: the record whose `expires_at` is unparseable is
collected as expired, but the removal loop reads its `user_id` and
`app_slug` with `.get` and skips the record when either is absent, so
`cleanup_expired_sessions` leaves the whole store — including the
supposedly-removed record — unchanged. -/
theorem c8_counterexample :
    cleanup_expired_sessions c8Store 0 false = c8Store ∧
    memSession (cleanup_expired_sessions c8Store 0 false) "sid-1" = some c8rec :=
  ⟨rfl, rfl⟩

/-- C8 amended: a record with a present but unparseable `expires_at` is
treated as expired and its removal is attempted through the same
`remove_session` path; it is guaranteed to disappear from the in-memory
map when its `user_id` and `app_slug` are present and non-empty, the
index entry for that pair currently points at this record, and the
durable delete does not fail; and the sweep body then finishes without
any exception reaching the caller. -/
theorem c8_amended_unparseable_removed (s : Store) (m : List (String × SessionRecord))
    (sid : String) (r : SessionRecord) (u a : String) (now : Nat)
    (hs : s.sessions = some m) (hr : dictGet sid m = some r)
    (hexp : r.expires_at = some .malformed)
    (hu : r.user_id = some u) (hu' : u ≠ "") (ha : r.app_slug = some a) (ha' : a ≠ "")
    (hpair : uasLookup s.user_app_sessions u a = some sid) :
    memSession (cleanup_expired_sessions s now false) sid = none ∧
    (cleanup_run s now false).2 = .ok () := by
  have hok : (s.use_sqlite && false) = false := Bool.and_false _
  have hrun := cleanup_run_eq_some now hok hs
  have hs0sess : (if s.use_sqlite then { s with db := dbSweep s.db now } else s).sessions
      = some m := by
    cases husq : s.use_sqlite <;> simp [husq, hs]
  have hs0uas : (if s.use_sqlite then { s with db := dbSweep s.db now } else s).user_app_sessions
      = s.user_app_sessions := by
    cases husq : s.use_sqlite <;> simp [husq]
  have hmemE : sid ∈ expiredList m now :=
    expiredList_mem_intro (mem_of_dictGet hr) (by simp [sessionExpired, hexp])
  constructor
  · unfold cleanup_expired_sessions
    rw [hrun]
    refine sweepLoop_removes false (expiredList m now)
      (if s.use_sqlite then { s with db := dbSweep s.db now } else s) sid r u a
      (fun _ => rfl) hmemE (Or.inr ⟨?_, ?_⟩) hu hu' ha ha'
    · rw [memSession_of_some hs0sess]
      exact hr
    · rw [hs0uas]
      exact hpair
  · rw [hrun]
    obtain ⟨st', hst'⟩ := sweepLoop_ok false (expiredList m now)
      (if s.use_sqlite then { s with db := dbSweep s.db now } else s) m hs0sess
      (fun _ => rfl)
    rw [hst']

/-- Record with an unparseable `expires_at` and usable identity fields,
for the C8 witness. -/
def c8wrec : SessionRecord :=
  { session_id := some "sid-8", user_id := some "u8", app_slug := some "app8",
    expires_at := some .malformed }

/-- Store for the C8 witness. -/
def c8wStore : Store :=
  { use_sqlite := true, sessions := some [("sid-8", c8wrec)],
    user_app_sessions := [("u8", [("app8", "sid-8")])], db := [] }

/-- Witness for the amended C8 at concrete inputs. -/
theorem c8_amended_witness :
    memSession (cleanup_expired_sessions c8wStore 7 false) "sid-8" = none ∧
    (cleanup_run c8wStore 7 false).2 = .ok () :=
  c8_amended_unparseable_removed c8wStore [("sid-8", c8wrec)] "sid-8" c8wrec "u8" "app8" 7
    rfl rfl rfl rfl (by decide) rfl (by decide) rfl
